import Mathlib

/-!
Verification development for `src/ctapipe/io/hdftableio.py`: a shallow
embedding of the table-writer core (schema inference, exclusions, column
transforms, header metadata, row append) together with theorems checking the
natural-language specification against the embedded code.

External collaborators (the `re` matching engine, the astropy quantity/unit
contract, the `ctapipe.core.Container` record contract, and the pytables
backend) are modelled at the interface boundary the spec gives for them;
everything in `TableWriter`/`SimpleHDF5TableWriter` is translated directly
from the Python source.
-/

namespace HdfTableModel

/-- Modelled from the spec: a compiled exclusion pattern (the external `re`
module's regular expressions, used by `TableWriter.exclude` /
`_is_column_excluded` with `pattern.match`, i.e. anchored start-of-string
matching). -/
inductive Regex where
  | emp
  | eps
  | chr (c : Char)
  | any
  | seq (a b : Regex)
  | alt (a b : Regex)
  | star (a : Regex)
  deriving DecidableEq, Repr

/-- Whether a regex accepts the empty word. -/
def nullable : Regex → Bool
  | Regex.emp => false
  | Regex.eps => true
  | Regex.chr _ => false
  | Regex.any => false
  | Regex.seq a b => nullable a && nullable b
  | Regex.alt a b => nullable a || nullable b
  | Regex.star _ => true

/-- Brzozowski derivative of a regex by one character. -/
def deriv : Regex → Char → Regex
  | Regex.emp, _ => Regex.emp
  | Regex.eps, _ => Regex.emp
  | Regex.chr d, c => if d = c then Regex.eps else Regex.emp
  | Regex.any, _ => Regex.eps
  | Regex.seq a b, c =>
    if nullable a then Regex.alt (Regex.seq (deriv a c) b) (deriv b c)
    else Regex.seq (deriv a c) b
  | Regex.alt a b, c => Regex.alt (deriv a c) (deriv b c)
  | Regex.star a, c => Regex.seq (deriv a c) (Regex.star a)

/-- Exact (whole-word) regex acceptance. -/
def accepts : Regex → List Char → Bool
  | r, [] => nullable r
  | r, c :: cs => accepts (deriv r c) cs

/-- Semantics of `re.match`: the regex matches some initial segment of the word
(anchored at the start, not required to reach the end). -/
def matchAtStart : Regex → List Char → Bool
  | r, [] => nullable r
  | r, c :: cs => nullable r || matchAtStart (deriv r c) cs

/-- The regex matching exactly one literal word. -/
def litOf : List Char → Regex
  | [] => Regex.eps
  | c :: cs => Regex.seq (Regex.chr c) (litOf cs)

/-- Python-level failures the embedded code can raise. `keyError` models both
`KeyError` from a dict lookup (e.g. `PYTABLES_TYPE_MAP[typename]`, or a record
missing a schema field — `MissingFieldError` in the spec's taxonomy),
`attributeError` models calling `.to`/`.value` on a non-quantity, and
`unitsError` models an incompatible unit conversion (`TransformError`). -/
inductive PyErr where
  | keyError (key : String)
  | attributeError
  | unitsError
  deriving DecidableEq, Repr

/-- Modelled from the spec: the external unit contract (spec section 6). A unit
has a string form, a dimension tag, and a scale factor to a base unit of its
dimension. -/
structure PhysUnit where
  name : String
  dim : String
  factor : Rat
  deriving DecidableEq, Repr

/-- Modelled from the spec: the external quantity contract — a bare magnitude
plus a unit tag. -/
structure Quantity where
  value : Rat
  unit : PhysUnit
  deriving DecidableEq, Repr

/-- Modelled from the spec: `convertTo(quantity, targetUnit)`. Conversion to a
unit of a different dimension fails; conversion to the very same unit is the
identity; otherwise the magnitude is rescaled through the base unit. -/
def Quantity.toUnit (q : Quantity) (u : PhysUnit) : Except PyErr Quantity :=
  if q.unit.dim = u.dim then
    Except.ok
      (if q.unit = u then q
       else { value := q.value * q.unit.factor / u.factor, unit := u })
  else Except.error PyErr.unitsError

/-- A fixed-shape numeric array (the `np.ndarray` values the writer sees):
its dtype name, its shape, and its flattened payload. -/
structure NDArray where
  dtypeName : String
  shape : List Nat
  data : List Rat
  deriving DecidableEq, Repr

/-- A runtime-typed field value, mirroring the runtime type inspection the
source performs (`isinstance(value, Quantity)`, `isinstance(value, np.ndarray)`
and `type(value).__name__`). -/
inductive RTValue where
  | pyInt (n : Int)
  | pyFloat (x : Rat)
  | npFloat64 (x : Rat)
  | npFloat32 (x : Rat)
  | pyBool (b : Bool)
  | quantity (q : Quantity)
  | array (a : NDArray)
  | other (tname : String)
  deriving DecidableEq, Repr

/-- The name `type(value).__name__` for the embedded runtime values. -/
def RTValue.typeName : RTValue → String
  | RTValue.pyInt _ => "int"
  | RTValue.pyFloat _ => "float"
  | RTValue.npFloat64 _ => "float64"
  | RTValue.npFloat32 _ => "float32"
  | RTValue.pyBool _ => "bool"
  | RTValue.quantity _ => "Quantity"
  | RTValue.array _ => "ndarray"
  | RTValue.other tn => tn

/-- Embeds `isinstance(value, Quantity)`. -/
def RTValue.isQuantity : RTValue → Bool
  | RTValue.quantity _ => true
  | _ => false

/-- Embeds `isinstance(value, np.ndarray)` for the (already unit-stripped) values the
schema loop inspects. -/
def RTValue.isArray : RTValue → Bool
  | RTValue.array _ => true
  | _ => false

/-- A value stored in a table header attribute. -/
inductive AttrVal where
  | str (s : String)
  | num (n : Int)
  deriving DecidableEq, Repr

/-- A pytables column descriptor: either a scalar column class or an array
column class with a fixed shape (`coltype()` / `coltype(shape=shape)`). -/
inductive ColType where
  | scalar (colClass : String)
  | arrayCol (colClass : String) (shape : List Nat)
  deriving DecidableEq, Repr

/-- First-match association-list lookup (Python dict read). -/
def lookup? {α : Type} : List (String × α) → String → Option α
  | [], _ => none
  | kv :: rest, k => if kv.1 = k then some kv.2 else lookup? rest k

/-- Python dict write `d[k] = v`: replace in place if the key exists, append
otherwise (insertion order preserved). -/
def dictSet {α : Type} : List (String × α) → String → α → List (String × α)
  | [], k, v => [(k, v)]
  | kv :: rest, k, v =>
    if kv.1 = k then (k, v) :: rest else kv :: dictSet rest k v

/-- Python `d.update(e)`: write every entry of `e` into `d`, in order. -/
def dictUpdate {α : Type} (l : List (String × α)) : List (String × α) → List (String × α)
  | [] => l
  | kv :: rest => dictUpdate (dictSet l kv.1 kv.2) rest

/-- The map `PYTABLES_TYPE_MAP` from the source: the supported type names and the
pytables column classes they map to. -/
def PYTABLES_TYPE_MAP : List (String × String) :=
  [("float", "Float64Col"), ("float64", "Float64Col"), ("float32", "Float32Col"),
   ("int", "IntCol"), ("bool", "BoolCol")]

/-- Modelled from the spec: the record/container contract (spec section 6;
`ctapipe.core.Container` itself is outside `src/`). A record is an ordered
mapping of field names to runtime values, a per-field optional preferred unit
(`container.attributes[name].unit`), a string-keyed metadata mapping
(`container.meta`) and a class name (used as the table title). Keyed lookup of
an absent field fails with a key error (`MissingFieldError` in the spec). -/
structure Container where
  className : String
  fields : List (String × RTValue)
  attributes : List (String × Option PhysUnit)
  meta : List (String × AttrVal)

/-- Reads `container.attributes[col_name].unit`, with an absent entry read as no
declared preferred unit. -/
def Container.getUnitAttr (c : Container) (col : String) : Option PhysUnit :=
  (lookup? c.attributes col).getD none

/-- A column transform: a function from a value to a value that may raise. -/
def Transform : Type := RTValue → Except PyErr RTValue

/-- From the source, `tr_convert_and_strip_unit(quantity, unit)`:
`quantity.to(unit).value`. -/
def tr_convert_and_strip_unit (v : RTValue) (u : PhysUnit) : Except PyErr RTValue :=
  match v with
  | RTValue.quantity q =>
    match q.toUnit u with
    | Except.error e => Except.error e
    | Except.ok q2 => Except.ok (RTValue.npFloat64 q2.value)
  | _ => Except.error PyErr.attributeError

/-- The `lambda x: x.value` transform the writer registers for a quantity field
with no declared preferred unit: strip the unit, no conversion. -/
def tr_strip_value : Transform := fun v =>
  match v with
  | RTValue.quantity q => Except.ok (RTValue.npFloat64 q.value)
  | _ => Except.error PyErr.attributeError

/-- A physical table owned by the backend: title, column description (the
schema, in insertion order), header attributes, and the committed rows. -/
structure Table where
  title : String
  description : List (String × ColType)
  attrs : List (String × AttrVal)
  rows : List (List (String × RTValue))

/-- Embeds `table.colnames`: the column names of the description, in schema order. -/
def Table.colnames (tb : Table) : List String := tb.description.map Prod.fst

/-- The writer's mutable state: `self._transforms` (table -> column ->
transform), `self._exclusions` (table -> compiled patterns), `self._schemas`
and `self._tables`. -/
structure WriterState where
  transforms : List (String × List (String × Transform))
  exclusions : List (String × List Regex)
  schemas : List (String × List (String × ColType))
  tables : List (String × Table)

/-- The state of a freshly constructed writer. -/
def initState : WriterState :=
  { transforms := [], exclusions := [], schemas := [], tables := [] }

/-- The read of `self._transforms[table_name]` (a `defaultdict(dict)`). -/
def getTransforms (st : WriterState) (t : String) : List (String × Transform) :=
  (lookup? st.transforms t).getD []

/-- The read of `self._exclusions[table_name]` (a `defaultdict(list)`). -/
def getExclusions (st : WriterState) (t : String) : List Regex :=
  (lookup? st.exclusions t).getD []

/-- Embeds `TableWriter.exclude`: append a compiled pattern to the table's exclusion
list. -/
def exclude (st : WriterState) (t : String) (p : Regex) : WriterState :=
  { st with exclusions := dictSet st.exclusions t (getExclusions st t ++ [p]) }

/-- The loop body of `_is_column_excluded`: return true at the first pattern
whose `match` succeeds. -/
def excludedLoop : List Regex → String → Bool
  | [], _ => false
  | p :: ps, col => if matchAtStart p col.toList then true else excludedLoop ps col

/-- Embeds `TableWriter._is_column_excluded`. -/
def _is_column_excluded (st : WriterState) (t col : String) : Bool :=
  excludedLoop (getExclusions st t) col

/-- Embeds `TableWriter.add_column_transform`: register (overwriting any prior)
a transform for `(table, column)`. -/
def add_column_transform (st : WriterState) (t col : String) (tr : Transform) :
    WriterState :=
  { st with transforms := dictSet st.transforms t (dictSet (getTransforms st t) col tr) }

/-- The fixed library-version tag `ctapipe.__version__` (an external global;
its concrete value is irrelevant to every claim). -/
def ctapipe_version : String := "0.1.0"

/-- The transform the schema loop builds for a quantity field: the
functools closure binding `tr_convert_and_strip_unit` to the preferred
unit when one is declared, and `lambda x: x.value` otherwise. -/
def quantityTransform (cont : Container) (col : String) (q : Quantity) : Transform :=
  match cont.getUnitAttr col with
  | some u => fun x => tr_convert_and_strip_unit x u
  | none => tr_strip_value

/-- The target unit for a quantity field: the declared preferred unit if
present, otherwise the quantity's own current unit. Its string form is what
the schema loop records under `{col}_UNIT`. -/
def targetUnit (cont : Container) (col : String) (q : Quantity) : PhysUnit :=
  (cont.getUnitAttr col).getD q.unit

/-- The array/scalar tail of the schema-loop body: `if isinstance(value,
np.ndarray)` add an array column (raising `KeyError` on an unsupported dtype
name), `elif type(value).__name__ in PYTABLES_TYPE_MAP` add a scalar column,
else leave the schema unchanged (the silent-skip policy). -/
def addColToSchema (schema : List (String × ColType)) (col : String) (v : RTValue) :
    Except PyErr (List (String × ColType)) :=
  match v with
  | RTValue.array a =>
    match lookup? PYTABLES_TYPE_MAP a.dtypeName with
    | some cc => Except.ok (dictSet schema col (ColType.arrayCol cc a.shape))
    | none => Except.error (PyErr.keyError a.dtypeName)
  | w =>
    match lookup? PYTABLES_TYPE_MAP w.typeName with
    | some cc => Except.ok (dictSet schema col (ColType.scalar cc))
    | none => Except.ok schema

/-- The field loop of `_create_hdf5_table_schema`: skip excluded columns; for a
quantity field build the unit transform, record the `{col}_UNIT` header entry,
apply the transform to the working value and register it; then derive the
column descriptor from the (possibly transformed) value. Threads the writer
state (for `add_column_transform`), the schema under construction and the
metadata accumulator. -/
def schemaLoop (t : String) (cont : Container) :
    List (String × RTValue) → WriterState → List (String × ColType) →
    List (String × AttrVal) →
    Except PyErr (WriterState × List (String × ColType) × List (String × AttrVal))
  | [], st, schema, meta => Except.ok (st, schema, meta)
  | (col, v) :: rest, st, schema, meta =>
    if _is_column_excluded st t col then
      schemaLoop t cont rest st schema meta
    else
      match v with
      | RTValue.quantity q =>
        let tr := quantityTransform cont col q
        let meta2 := dictSet meta (col ++ "_UNIT") (AttrVal.str (targetUnit cont col q).name)
        match tr (RTValue.quantity q) with
        | Except.error e => Except.error e
        | Except.ok v2 =>
          match addColToSchema schema col v2 with
          | Except.error e => Except.error e
          | Except.ok schema2 =>
            schemaLoop t cont rest (add_column_transform st t col tr) schema2 meta2
      | w =>
        match addColToSchema schema col w with
        | Except.error e => Except.error e
        | Except.ok schema2 => schemaLoop t cont rest st schema2 meta

/-- Embeds `SimpleHDF5TableWriter._create_hdf5_table_schema`: run the field loop over
the container's items, store the resulting schema under the table name, and
return the metadata accumulator extended with the `CTAPIPE_VERSION` tag. -/
def _create_hdf5_table_schema (st : WriterState) (t : String) (cont : Container) :
    Except PyErr (WriterState × List (String × AttrVal)) :=
  match schemaLoop t cont cont.fields st [] [] with
  | Except.error e => Except.error e
  | Except.ok (st2, schema, meta) =>
    Except.ok ({ st2 with schemas := dictSet st2.schemas t schema },
               dictSet meta "CTAPIPE_VERSION" (AttrVal.str ctapipe_version))

/-- Embeds `SimpleHDF5TableWriter._setup_new_table`: build the schema, merge the
returned metadata with the container's own metadata (`meta.update(...)`, so the
container's entries win on key collision), create the physical table with the
stored schema and the container's class name as title, and write the combined
metadata as the header attributes. -/
def _setup_new_table (st : WriterState) (t : String) (cont : Container) :
    Except PyErr WriterState :=
  match _create_hdf5_table_schema st t cont with
  | Except.error e => Except.error e
  | Except.ok (st2, meta0) =>
    let meta := dictUpdate meta0 cont.meta
    let schema := (lookup? st2.schemas t).getD []
    Except.ok { st2 with
      tables := dictSet st2.tables t
        { title := cont.className, description := schema, attrs := meta, rows := [] } }

/-- One column of the append loop: read `container[colname]` (key error when
the field is absent), then apply the registered transform if one exists. -/
def appliedValue (trs : List (String × Transform)) (cont : Container) (col : String) :
    Except PyErr RTValue :=
  match lookup? cont.fields col with
  | none => Except.error (PyErr.keyError col)
  | some v =>
    match lookup? trs col with
    | some tr => tr v
    | none => Except.ok v

/-- The column loop of `_append_row`: fill the row slots in `table.colnames`
order. -/
def rowLoop (trs : List (String × Transform)) (cont : Container) :
    List String → List (String × RTValue) →
    Except PyErr (List (String × RTValue))
  | [], row => Except.ok row
  | col :: cols, row =>
    match appliedValue trs cont col with
    | Except.error e => Except.error e
    | Except.ok v => rowLoop trs cont cols (dictSet row col v)

/-- Embeds `SimpleHDF5TableWriter._append_row`: build a row over the table's column
names and commit it (`row.append()`) only when every slot was filled. -/
def _append_row (st : WriterState) (t : String) (cont : Container) :
    Except PyErr WriterState :=
  match lookup? st.tables t with
  | none => Except.error (PyErr.keyError t)
  | some tb =>
    match rowLoop (getTransforms st t) cont tb.colnames [] with
    | Except.error e => Except.error e
    | Except.ok row =>
      Except.ok { st with
        tables := dictSet st.tables t { tb with rows := tb.rows ++ [row] } }

/-- Embeds `SimpleHDF5TableWriter.write`: set the table up on the first call for its
name, then append one row. -/
def write (st : WriterState) (t : String) (cont : Container) :
    Except PyErr WriterState :=
  match lookup? st.schemas t with
  | none =>
    match _setup_new_table st t cont with
    | Except.error e => Except.error e
    | Except.ok st2 => _append_row st2 t cont
  | some _ => _append_row st t cont

/-- The error-free row contents the append loop produces for a list of column
names: the (possibly transformed) value of each column, in order. -/
def rowValues (trs : List (String × Transform)) (cont : Container) :
    List String → Except PyErr (List (String × RTValue))
  | [] => Except.ok []
  | col :: cols =>
    match appliedValue trs cont col with
    | Except.error e => Except.error e
    | Except.ok v =>
      match rowValues trs cont cols with
      | Except.error e => Except.error e
      | Except.ok r => Except.ok ((col, v) :: r)

/-- Project the schema and metadata out of a schema-loop result (drops the
threaded writer state). -/
def loopOut (r : WriterState × List (String × ColType) × List (String × AttrVal)) :
    List (String × ColType) × List (String × AttrVal) := (r.2.1, r.2.2)

/-- Extract the state from a successful writer step (used to name concrete
run results in closed statements). -/
def exState (r : Except PyErr WriterState) : WriterState :=
  match r with
  | Except.ok s => s
  | Except.error _ => initState

/-- A default table, used to read back a concrete table handle. -/
def exTable (o : Option Table) : Table :=
  o.getD { title := "", description := [], attrs := [], rows := [] }

/-! Concrete inputs for witnesses and counterexamples. -/

def TeV : PhysUnit := { name := "TeV", dim := "E", factor := 1000000 }

def GeV : PhysUnit := { name := "GeV", dim := "E", factor := 1000 }

def mUnit : PhysUnit := { name := "m", dim := "L", factor := 1 }

def kgUnit : PhysUnit := { name := "kg", dim := "M", factor := 1 }

/-- The section-8 record: `energy` = 10 TeV with preferred unit GeV,
`event_id` = 42, one metadata entry. -/
def eventsR : Container :=
  { className := "EventRec",
    fields := [("energy", RTValue.quantity { value := 10, unit := TeV }),
               ("event_id", RTValue.pyInt 42)],
    attributes := [("energy", some GeV), ("event_id", none)],
    meta := [("test_attribute", AttrVal.num 3)] }

/-- A structurally identical second record: `energy` = 5 TeV, `event_id` = 43. -/
def eventsR2 : Container :=
  { className := "EventRec",
    fields := [("energy", RTValue.quantity { value := 5, unit := TeV }),
               ("event_id", RTValue.pyInt 43)],
    attributes := [("energy", some GeV), ("event_id", none)],
    meta := [("test_attribute", AttrVal.num 3)] }

/-- The writer state after the first `write("events", eventsR)`. -/
def C2st1 : WriterState := exState (write initState "events" eventsR)

/-- The writer state after writing `eventsR` and then `eventsR2`. -/
def C1st2 : WriterState := exState (write C2st1 "events" eventsR2)

/-- A user transform, registered before the first write: maps any value to the
float 0 (stands for an int-to-float conversion). -/
def trC3 : Transform := fun _ => Except.ok (RTValue.pyFloat 0)

def C3cont : Container :=
  { className := "X", fields := [("x", RTValue.pyInt 5)], attributes := [], meta := [] }

/-- State with `trC3` registered for ("t", "x") before any write. -/
def C3st0 : WriterState := add_column_transform initState "t" "x" trC3

def C3st1 : WriterState := exState (write C3st0 "t" C3cont)

/-- A record holding a fixed-shape integer array, whose dtype name `int64` is
not in `PYTABLES_TYPE_MAP`. -/
def C4cont : Container :=
  { className := "X",
    fields := [("x", RTValue.array { dtypeName := "int64", shape := [3], data := [1, 2, 3] })],
    attributes := [], meta := [] }

def C6R1 : Container :=
  { className := "Ev",
    fields := [("a", RTValue.quantity { value := 1, unit := mUnit }), ("b", RTValue.pyInt 2)],
    attributes := [("a", some mUnit)], meta := [] }

/-- A later record that lacks field `b` and whose `a` carries a unit of the
wrong dimension. -/
def C6R2 : Container :=
  { className := "Ev",
    fields := [("a", RTValue.quantity { value := 5, unit := kgUnit })],
    attributes := [("a", some kgUnit)], meta := [] }

def C6st1 : WriterState := exState (write initState "events" C6R1)

def C6w1 : Container :=
  { className := "R", fields := [("a", RTValue.pyInt 1), ("b", RTValue.pyInt 2)],
    attributes := [], meta := [] }

/-- A later record that lacks field `b` (and has no failing transforms). -/
def C6w2 : Container :=
  { className := "R", fields := [("a", RTValue.pyInt 7)], attributes := [], meta := [] }

def C6wSt : WriterState := exState (write initState "t6" C6w1)

/-- Record with a quantity field and no declared preferred unit. -/
def C10R1 : Container :=
  { className := "Q", fields := [("e", RTValue.quantity { value := 10, unit := TeV })],
    attributes := [("e", none)], meta := [] }

/-- A later record whose quantity carries a different unit (GeV, not TeV). -/
def C10R2 : Container :=
  { className := "Q", fields := [("e", RTValue.quantity { value := 5, unit := GeV })],
    attributes := [("e", none)], meta := [] }

def C10st1 : WriterState := exState (write initState "q" C10R1)

def C10st2 : WriterState := exState (write C10st1 "q" C10R2)

/-- A user transform registered after the first write (for claim 9's witness):
maps every value to the int 0. -/
def tr9 : Transform := fun _ => Except.ok (RTValue.pyInt 0)

def C9st : WriterState := add_column_transform C2st1 "events" "event_id" tr9

def C9st2 : WriterState := exState (write C9st "events" eventsR2)

/-! Association-list lemmas. -/

theorem lookup?_dictSet_self {α : Type} (l : List (String × α)) (k : String) (v : α) :
    lookup? (dictSet l k v) k = some v := by
  induction l with
  | nil => simp [dictSet, lookup?]
  | cons kv rest ih =>
    by_cases h : kv.1 = k
    · simp [dictSet, h, lookup?]
    · simp [dictSet, h, lookup?, ih]

theorem lookup?_dictSet_ne {α : Type} (l : List (String × α)) (k k2 : String) (v : α)
    (h : k2 ≠ k) : lookup? (dictSet l k v) k2 = lookup? l k2 := by
  have hk2 : ¬ k = k2 := fun hc => h hc.symm
  induction l with
  | nil => simp [dictSet, lookup?, hk2]
  | cons kv rest ih =>
    by_cases hk : kv.1 = k
    · have h1 : ¬ kv.1 = k2 := by rw [hk]; exact hk2
      simp [dictSet, hk, lookup?, hk2, h1]
    · simp [dictSet, hk, lookup?, ih]

theorem dictSet_dictSet {α : Type} (l : List (String × α)) (k : String) (v w : α) :
    dictSet (dictSet l k v) k w = dictSet l k w := by
  induction l with
  | nil => simp [dictSet]
  | cons kv rest ih =>
    by_cases h : kv.1 = k
    · simp [dictSet, h]
    · simp [dictSet, h, ih]

theorem lookup?_eq_none {α : Type} (l : List (String × α)) (k : String) :
    lookup? l k = none ↔ k ∉ l.map Prod.fst := by
  induction l with
  | nil => simp [lookup?]
  | cons kv rest ih =>
    by_cases h : kv.1 = k
    · simp [lookup?, h]
    · simp only [lookup?, h, if_false, List.map_cons, List.mem_cons, not_or, ih]
      constructor
      · intro hn
        exact ⟨fun hc => h hc.symm, hn⟩
      · intro hn
        exact hn.2

theorem mem_keys_of_lookup? {α : Type} (l : List (String × α)) (k : String) (v : α)
    (h : lookup? l k = some v) : k ∈ l.map Prod.fst := by
  by_contra hc
  rw [← lookup?_eq_none l k] at hc
  rw [h] at hc
  cases hc

theorem dictSet_of_notMem {α : Type} (l : List (String × α)) (k : String) (v : α)
    (h : k ∉ l.map Prod.fst) : dictSet l k v = l ++ [(k, v)] := by
  induction l with
  | nil => simp [dictSet]
  | cons kv rest ih =>
    simp only [List.map_cons, List.mem_cons, not_or] at h
    have h1 : ¬ kv.1 = k := fun hc => h.1 hc.symm
    simp [dictSet, h1, ih h.2]

theorem keys_dictSet_of_mem {α : Type} (l : List (String × α)) (k : String) (v : α)
    (h : k ∈ l.map Prod.fst) : (dictSet l k v).map Prod.fst = l.map Prod.fst := by
  induction l with
  | nil => simp at h
  | cons kv rest ih =>
    by_cases hk : kv.1 = k
    · simp [dictSet, hk]
    · simp only [List.map_cons, List.mem_cons] at h
      rcases h with h | h
      · exact absurd h.symm hk
      · simp [dictSet, hk, ih h]

theorem nodup_keys_dictSet {α : Type} (l : List (String × α)) (k : String) (v : α)
    (h : (l.map Prod.fst).Nodup) : ((dictSet l k v).map Prod.fst).Nodup := by
  by_cases hm : k ∈ l.map Prod.fst
  · rw [keys_dictSet_of_mem l k v hm]; exact h
  · rw [dictSet_of_notMem l k v hm]
    simp only [List.map_append, List.map_cons, List.map_nil]
    rw [List.nodup_append]
    refine ⟨h, List.nodup_singleton _, ?_⟩
    intro a ha hb
    rw [List.mem_singleton] at hb
    exact hm (hb ▸ ha)

theorem lookup?_of_mem_nodup {α : Type} (l : List (String × α)) (k : String) (v : α)
    (hmem : (k, v) ∈ l) (hnd : (l.map Prod.fst).Nodup) : lookup? l k = some v := by
  induction l with
  | nil => simp at hmem
  | cons kv rest ih =>
    simp only [List.map_cons, List.nodup_cons] at hnd
    rcases List.mem_cons.mp hmem with h | h
    · rw [← h]
      simp [lookup?]
    · have hk : kv.1 ≠ k := by
        intro hc
        exact hnd.1 (hc ▸ (List.mem_map.mpr ⟨(k, v), h, rfl⟩))
      simp [lookup?, hk, ih h hnd.2]

theorem lookup?_dictUpdate_none {α : Type} (b : List (String × α)) :
    ∀ (a : List (String × α)) (k : String), lookup? b k = none →
      lookup? (dictUpdate a b) k = lookup? a k := by
  induction b with
  | nil => intro a k _; rfl
  | cons kv rest ih =>
    intro a k h
    by_cases hk : kv.1 = k
    · simp [lookup?, hk] at h
    · simp only [lookup?, hk, if_false] at h
      rw [dictUpdate, ih _ k h, lookup?_dictSet_ne _ _ _ _ (fun hc => hk hc.symm)]

theorem lookup?_dictUpdate_some {α : Type} (b : List (String × α)) :
    ∀ (a : List (String × α)) (k : String) (v : α), (b.map Prod.fst).Nodup →
      lookup? b k = some v → lookup? (dictUpdate a b) k = some v := by
  induction b with
  | nil => intro a k v _ h; cases h
  | cons kv rest ih =>
    intro a k v hnd h
    simp only [List.map_cons, List.nodup_cons] at hnd
    by_cases hk : kv.1 = k
    · simp only [lookup?, hk, if_true, Option.some.injEq] at h
      have hrest : lookup? rest k = none := by
        rw [lookup?_eq_none]
        exact fun hm => hnd.1 (hk ▸ hm)
      rw [dictUpdate, lookup?_dictUpdate_none rest _ k hrest, hk, ← h,
        lookup?_dictSet_self]
    · simp only [lookup?, hk, if_false] at h
      rw [dictUpdate]
      exact ih _ k v hnd.2 h

/-! Header-key lemmas. -/

theorem unitKey_inj (c1 c2 : String) (h : c1 ++ "_UNIT" = c2 ++ "_UNIT") : c1 = c2 := by
  apply String.ext
  have hd := congrArg String.data h
  simp only [String.data_append] at hd
  exact List.append_cancel_right hd

theorem unitKey_ne_version (col : String) : col ++ "_UNIT" ≠ "CTAPIPE_VERSION" := by
  intro h
  have hd := congrArg String.data h
  simp only [String.data_append] at hd
  have h2 : col.data ++ "_UNIT".data = "CTAPIPE_VE".data ++ "RSION".data := by
    rw [hd]; decide
  have h3 := List.append_inj' h2 (by decide)
  exact absurd h3.2 (by decide)

/-! Regex lemmas: the derivative matcher, exact acceptance of literal words,
and the prefix characterisation of `matchAtStart` (= `re.match`). -/

theorem accepts_emp : ∀ s : List Char, accepts Regex.emp s = false := by
  intro s
  induction s with
  | nil => rfl
  | cons c cs ih => simpa [accepts, deriv] using ih

theorem accepts_alt : ∀ (s : List Char) (a b : Regex),
    accepts (Regex.alt a b) s = (accepts a s || accepts b s) := by
  intro s
  induction s with
  | nil => intro a b; simp [accepts, nullable]
  | cons c cs ih => intro a b; simp [accepts, deriv, ih]

theorem accepts_seq_emp : ∀ (s : List Char) (r : Regex),
    accepts (Regex.seq Regex.emp r) s = false := by
  intro s
  induction s with
  | nil => intro r; simp [accepts, nullable]
  | cons c cs ih => intro r; simpa [accepts, deriv, nullable] using ih r

theorem accepts_seq_eps : ∀ (s : List Char) (r : Regex),
    accepts (Regex.seq Regex.eps r) s = accepts r s := by
  intro s
  induction s with
  | nil => intro r; simp [accepts, nullable]
  | cons c cs ih =>
    intro r
    simp [accepts, deriv, nullable, accepts_alt, accepts_seq_emp]

theorem accepts_litOf : ∀ (p s : List Char), accepts (litOf p) s = true ↔ p = s := by
  intro p
  induction p with
  | nil =>
    intro s
    cases s with
    | nil => simp [litOf, accepts, nullable]
    | cons c cs => simp [litOf, accepts, deriv, accepts_emp]
  | cons d ds ih =>
    intro s
    cases s with
    | nil => simp [litOf, accepts, nullable]
    | cons c cs =>
      by_cases hdc : d = c
      · subst hdc
        simp [litOf, accepts, deriv, nullable, accepts_seq_eps, ih]
      · simp [litOf, accepts, deriv, nullable, hdc, accepts_seq_emp]

theorem matchAtStart_iff : ∀ (s : List Char) (r : Regex),
    matchAtStart r s = true ↔ ∃ n, accepts r (s.take n) = true := by
  intro s
  induction s with
  | nil => intro r; simp [matchAtStart, accepts]
  | cons c cs ih =>
    intro r
    simp only [matchAtStart, Bool.or_eq_true, ih]
    constructor
    · rintro (h | ⟨n, hn⟩)
      · exact ⟨0, by simpa [accepts] using h⟩
      · exact ⟨n + 1, by simpa [accepts, List.take_succ_cons] using hn⟩
    · rintro ⟨n, hn⟩
      cases n with
      | zero => exact Or.inl (by simpa [accepts] using hn)
      | succ m => exact Or.inr ⟨m, by simpa [accepts, List.take_succ_cons] using hn⟩

theorem matchAtStart_litOf (lit s : List Char) :
    matchAtStart (litOf lit) s = lit.isPrefixOf s := by
  have h1 : matchAtStart (litOf lit) s = true ↔ lit <+: s := by
    rw [matchAtStart_iff]
    constructor
    · rintro ⟨n, hn⟩
      rw [accepts_litOf] at hn
      rw [hn]
      exact List.take_prefix n s
    · intro hp
      exact ⟨lit.length, (accepts_litOf _ _).mpr (List.prefix_iff_eq_take.mp hp)⟩
  have h2 : lit.isPrefixOf s = true ↔ lit <+: s := List.isPrefixOf_iff_prefix
  exact Bool.eq_iff_iff.mpr (h1.trans h2.symm)

theorem excludedLoop_iff : ∀ (ps : List Regex) (col : String),
    excludedLoop ps col = true ↔ ∃ p ∈ ps, matchAtStart p col.toList = true := by
  intro ps col
  induction ps with
  | nil => simp [excludedLoop]
  | cons p rest ih =>
    simp only [excludedLoop, List.mem_cons, exists_eq_or_imp]
    by_cases h : matchAtStart p col.toList = true
    · rw [if_pos h]
      exact iff_of_true rfl (Or.inl h)
    · rw [if_neg h]
      constructor
      · intro hx
        exact Or.inr (ih.mp hx)
      · rintro (hp | hq)
        · exact absurd hp h
        · exact ih.mpr hq

/-! Writer-state lemmas. -/

theorem exclusions_add (st : WriterState) (t col : String) (tr : Transform) :
    (add_column_transform st t col tr).exclusions = st.exclusions := rfl

theorem excluded_of_exclusions_eq (st st2 : WriterState) (t col : String)
    (h : st.exclusions = st2.exclusions) :
    _is_column_excluded st t col = _is_column_excluded st2 t col := by
  unfold _is_column_excluded getExclusions
  rw [h]

theorem getTransforms_add_self (st : WriterState) (t col : String) (tr : Transform) :
    getTransforms (add_column_transform st t col tr) t =
      dictSet (getTransforms st t) col tr := by
  unfold getTransforms add_column_transform
  simp [lookup?_dictSet_self, getTransforms]

/-! Lemmas about `addColToSchema`. -/

theorem addColToSchema_nodup (schema : List (String × ColType)) (col : String)
    (v : RTValue) (schema2 : List (String × ColType))
    (h : addColToSchema schema col v = Except.ok schema2)
    (hnd : (schema.map Prod.fst).Nodup) : (schema2.map Prod.fst).Nodup := by
  unfold addColToSchema at h
  split at h
  · split at h
    · injection h with h2
      rw [← h2]
      exact nodup_keys_dictSet _ _ _ hnd
    · cases h
  · split at h
    · injection h with h2
      rw [← h2]
      exact nodup_keys_dictSet _ _ _ hnd
    · injection h with h2
      rw [← h2]
      exact hnd

theorem addColToSchema_lookup_ne (schema : List (String × ColType)) (col : String)
    (v : RTValue) (schema2 : List (String × ColType)) (c2 : String)
    (h : addColToSchema schema col v = Except.ok schema2) (hne : c2 ≠ col) :
    lookup? schema2 c2 = lookup? schema c2 := by
  unfold addColToSchema at h
  split at h
  · split at h
    · injection h with h2
      rw [← h2, lookup?_dictSet_ne _ _ _ _ hne]
    · cases h
  · split at h
    · injection h with h2
      rw [← h2, lookup?_dictSet_ne _ _ _ _ hne]
    · injection h with h2
      rw [← h2]

theorem addColToSchema_npFloat64 (schema : List (String × ColType)) (col : String)
    (x : Rat) :
    addColToSchema schema col (RTValue.npFloat64 x) =
      Except.ok (dictSet schema col (ColType.scalar "Float64Col")) := rfl

/-! Structural lemmas for `schemaLoop`. -/

theorem schemaLoop_state (t : String) (cont : Container) :
    ∀ (fields : List (String × RTValue)) (st : WriterState)
      (schema : List (String × ColType)) (meta : List (String × AttrVal))
      (st2 : WriterState) (schema2 : List (String × ColType))
      (meta2 : List (String × AttrVal)),
      schemaLoop t cont fields st schema meta = Except.ok (st2, schema2, meta2) →
      st2.exclusions = st.exclusions ∧ st2.schemas = st.schemas ∧
        st2.tables = st.tables ∧
        ((schema.map Prod.fst).Nodup → (schema2.map Prod.fst).Nodup) := by
  intro fields
  induction fields with
  | nil =>
    intro st schema meta st2 schema2 meta2 h
    simp only [schemaLoop, Except.ok.injEq, Prod.mk.injEq] at h
    obtain ⟨h1, h2, h3⟩ := h
    subst h1; subst h2; subst h3
    exact ⟨rfl, rfl, rfl, fun hh => hh⟩
  | cons fv rest ih =>
    intro st schema meta st2 schema2 meta2 h
    obtain ⟨c, v⟩ := fv
    simp only [schemaLoop] at h
    split at h
    · exact ih st schema meta st2 schema2 meta2 h
    · split at h
      · -- quantity field
        split at h
        · cases h
        · split at h
          · cases h
          · rename_i q v2 htr schema3 hadd
            have hr := ih _ _ _ _ _ _ h
            refine ⟨hr.1, hr.2.1, hr.2.2.1, fun hh => hr.2.2.2 ?_⟩
            exact addColToSchema_nodup _ _ _ _ hadd hh
      · -- non-quantity field
        split at h
        · cases h
        · rename_i w hw schema3 hadd
          have hr := ih _ _ _ _ _ _ h
          exact ⟨hr.1, hr.2.1, hr.2.2.1, fun hh =>
            hr.2.2.2 (addColToSchema_nodup _ _ _ _ hadd hh)⟩

theorem schemaLoop_preserve (t : String) (cont : Container) (col : String) :
    ∀ (fields : List (String × RTValue)) (st : WriterState)
      (schema : List (String × ColType)) (meta : List (String × AttrVal))
      (st2 : WriterState) (schema2 : List (String × ColType))
      (meta2 : List (String × AttrVal)),
      schemaLoop t cont fields st schema meta = Except.ok (st2, schema2, meta2) →
      col ∉ fields.map Prod.fst →
      lookup? (getTransforms st2 t) col = lookup? (getTransforms st t) col ∧
      lookup? schema2 col = lookup? schema col ∧
      lookup? meta2 (col ++ "_UNIT") = lookup? meta (col ++ "_UNIT") := by
  intro fields
  induction fields with
  | nil =>
    intro st schema meta st2 schema2 meta2 h _
    simp only [schemaLoop, Except.ok.injEq, Prod.mk.injEq] at h
    obtain ⟨h1, h2, h3⟩ := h
    subst h1; subst h2; subst h3
    exact ⟨rfl, rfl, rfl⟩
  | cons fv rest ih =>
    intro st schema meta st2 schema2 meta2 h hcol
    obtain ⟨c, v⟩ := fv
    simp only [List.map_cons, List.mem_cons, not_or] at hcol
    have hcne : col ≠ c := hcol.1
    have hkey : col ++ "_UNIT" ≠ c ++ "_UNIT" := fun hk => hcne (unitKey_inj _ _ hk)
    simp only [schemaLoop] at h
    split at h
    · exact ih st schema meta st2 schema2 meta2 h hcol.2
    · split at h
      · -- quantity field c
        split at h
        · cases h
        · split at h
          · cases h
          · rename_i q v2 htr schema3 hadd
            have hr := ih _ _ _ _ _ _ h hcol.2
            refine ⟨?_, ?_, ?_⟩
            · rw [hr.1, getTransforms_add_self,
                lookup?_dictSet_ne _ _ _ _ hcne]
            · rw [hr.2.1, addColToSchema_lookup_ne _ _ _ _ _ hadd hcne]
            · rw [hr.2.2, lookup?_dictSet_ne _ _ _ _ hkey]
      · -- non-quantity field c
        split at h
        · cases h
        · rename_i w hw schema3 hadd
          have hr := ih _ _ _ _ _ _ h hcol.2
          exact ⟨hr.1, by rw [hr.2.1, addColToSchema_lookup_ne _ _ _ _ _ hadd hcne],
            hr.2.2⟩

/-- What a successful application of the auto-built quantity transform to the
record's own quantity yields: the magnitude converted into the target unit. -/
theorem quantityTransform_ok (cont : Container) (col : String) (q : Quantity)
    (v2 : RTValue)
    (h : quantityTransform cont col q (RTValue.quantity q) = Except.ok v2) :
    ∃ q2, q.toUnit (targetUnit cont col q) = Except.ok q2 ∧
      v2 = RTValue.npFloat64 q2.value := by
  unfold targetUnit
  cases hattr : cont.getUnitAttr col with
  | some u =>
    simp only [quantityTransform, hattr, tr_convert_and_strip_unit] at h
    simp only [hattr, Option.getD_some]
    cases hto : q.toUnit u with
    | error e => rw [hto] at h; cases h
    | ok q2 =>
      rw [hto] at h
      injection h with h2
      exact ⟨q2, rfl, h2.symm⟩
  | none =>
    simp only [quantityTransform, hattr, tr_strip_value] at h
    injection h with h2
    simp only [hattr, Option.getD_none]
    refine ⟨q, ?_, h2.symm⟩
    unfold Quantity.toUnit
    rw [if_pos rfl, if_pos rfl]

/-- The per-field effect of schema inference on a non-excluded quantity field:
the unit transform ends up registered for the column, the header accumulator
holds `{col}_UNIT = str(target unit)`, the column is stored as a Float64
scalar, and the schema-time value is the magnitude in the target unit. -/
theorem schemaLoop_quantity (t : String) (cont : Container) (col : String)
    (q : Quantity) :
    ∀ (fields : List (String × RTValue)) (st : WriterState)
      (schema : List (String × ColType)) (meta : List (String × AttrVal))
      (st2 : WriterState) (schema2 : List (String × ColType))
      (meta2 : List (String × AttrVal)),
      schemaLoop t cont fields st schema meta = Except.ok (st2, schema2, meta2) →
      (col, RTValue.quantity q) ∈ fields →
      (fields.map Prod.fst).Nodup →
      _is_column_excluded st t col = false →
      lookup? (getTransforms st2 t) col = some (quantityTransform cont col q) ∧
      lookup? meta2 (col ++ "_UNIT") =
        some (AttrVal.str (targetUnit cont col q).name) ∧
      lookup? schema2 col = some (ColType.scalar "Float64Col") ∧
      ∃ q2, q.toUnit (targetUnit cont col q) = Except.ok q2 ∧
        quantityTransform cont col q (RTValue.quantity q) =
          Except.ok (RTValue.npFloat64 q2.value) := by
  intro fields
  induction fields with
  | nil =>
    intro st schema meta st2 schema2 meta2 _ hmem
    cases hmem
  | cons fv rest ih =>
    intro st schema meta st2 schema2 meta2 h hmem hnd hexcl
    obtain ⟨c, v⟩ := fv
    simp only [List.map_cons, List.nodup_cons] at hnd
    rcases List.mem_cons.mp hmem with heq | hmem2
    · -- the head is our quantity field
      injection heq with hc hv
      subst hc; subst hv
      have hnotex : ¬ (_is_column_excluded st t col = true) := by
        simp [hexcl]
      simp only [schemaLoop] at h
      rw [if_neg hnotex] at h
      cases htr : quantityTransform cont col q (RTValue.quantity q) with
      | error e =>
        rw [htr] at h
        dsimp only at h
        cases h
      | ok v2 =>
        rw [htr] at h
        dsimp only at h
        obtain ⟨q2, hto, hv2⟩ := quantityTransform_ok cont col q v2 htr
        subst hv2
        rw [addColToSchema_npFloat64] at h
        dsimp only at h
        have hpres := schemaLoop_preserve t cont col rest _ _ _ st2 schema2 meta2
          h hnd.1
        refine ⟨?_, ?_, ?_, q2, hto, rfl⟩
        · rw [hpres.1, getTransforms_add_self, lookup?_dictSet_self]
        · rw [hpres.2.2, lookup?_dictSet_self]
        · rw [hpres.2.1, lookup?_dictSet_self]
    · -- our field is in the tail
      simp only [schemaLoop] at h
      split at h
      · exact ih _ _ _ _ _ _ h hmem2 hnd.2 hexcl
      · split at h
        · -- head is a quantity field
          rename_i q'
          cases htr : quantityTransform cont c q' (RTValue.quantity q') with
          | error e =>
            rw [htr] at h
            dsimp only at h
            cases h
          | ok v2 =>
            rw [htr] at h
            dsimp only at h
            cases hadd : addColToSchema schema c v2 with
            | error e =>
              rw [hadd] at h
              dsimp only at h
              cases h
            | ok schema3 =>
              rw [hadd] at h
              dsimp only at h
              have hexcl2 : _is_column_excluded
                  (add_column_transform st t c (quantityTransform cont c q')) t col
                    = false := by
                rw [excluded_of_exclusions_eq _ st t col (exclusions_add st t c _)]
                exact hexcl
              exact ih _ _ _ _ _ _ h hmem2 hnd.2 hexcl2
        · -- head is a non-quantity field
          cases hadd : addColToSchema schema c v with
          | error e =>
            rw [hadd] at h
            dsimp only at h
            cases h
          | ok schema3 =>
            rw [hadd] at h
            dsimp only at h
            exact ih _ _ _ _ _ _ h hmem2 hnd.2 hexcl

/-- Schema inference reads the writer state only through the exclusion lists:
two states with equal exclusions produce the same inferred schema, the same
unit metadata, and the same error, whatever transforms are pre-registered. -/
theorem schemaLoop_indep (t : String) (cont : Container) :
    ∀ (fields : List (String × RTValue)) (st st' : WriterState)
      (schema : List (String × ColType)) (meta : List (String × AttrVal)),
      st.exclusions = st'.exclusions →
      (schemaLoop t cont fields st schema meta).map loopOut =
      (schemaLoop t cont fields st' schema meta).map loopOut := by
  intro fields
  induction fields with
  | nil => intro st st' schema meta _; rfl
  | cons fv rest ih =>
    intro st st' schema meta hE
    obtain ⟨c, v⟩ := fv
    simp only [schemaLoop]
    rw [excluded_of_exclusions_eq st st' t c hE]
    by_cases hex : _is_column_excluded st' t c = true
    · rw [if_pos hex, if_pos hex]
      exact ih st st' schema meta hE
    · rw [if_neg hex, if_neg hex]
      have hdef : ∀ (w : RTValue),
          ((match addColToSchema schema c w with
            | Except.error e => Except.error e
            | Except.ok schema2 => schemaLoop t cont rest st schema2 meta).map
              loopOut) =
          ((match addColToSchema schema c w with
            | Except.error e => Except.error e
            | Except.ok schema2 => schemaLoop t cont rest st' schema2 meta).map
              loopOut) := by
        intro w
        cases hadd : addColToSchema schema c w with
        | error e => rfl
        | ok schema3 => exact ih _ _ _ _ hE
      cases v with
      | quantity q =>
        dsimp only
        cases htr : quantityTransform cont c q (RTValue.quantity q) with
        | error e => rfl
        | ok v2 =>
          dsimp only
          cases hadd : addColToSchema schema c v2 with
          | error e => rfl
          | ok schema3 =>
            dsimp only
            refine ih _ _ _ _ ?_
            rw [exclusions_add, exclusions_add, hE]
      | pyInt n => exact hdef (RTValue.pyInt n)
      | pyFloat x => exact hdef (RTValue.pyFloat x)
      | npFloat64 x => exact hdef (RTValue.npFloat64 x)
      | npFloat32 x => exact hdef (RTValue.npFloat32 x)
      | pyBool b => exact hdef (RTValue.pyBool b)
      | array a => exact hdef (RTValue.array a)
      | other tn => exact hdef (RTValue.other tn)

/-! Row-append lemmas. -/

theorem rowLoop_eq (trs : List (String × Transform)) (cont : Container) :
    ∀ (cols : List String) (row : List (String × RTValue)),
      cols.Nodup → (∀ c ∈ cols, c ∉ row.map Prod.fst) →
      rowLoop trs cont cols row =
        (rowValues trs cont cols).map (fun r => row ++ r) := by
  intro cols
  induction cols with
  | nil =>
    intro row _ _
    simp [rowLoop, rowValues, Except.map]
  | cons col cols ih =>
    intro row hnd hdisj
    simp only [List.nodup_cons] at hnd
    simp only [rowLoop, rowValues]
    cases hav : appliedValue trs cont col with
    | error e => rfl
    | ok v =>
      dsimp only
      have hset : dictSet row col v = row ++ [(col, v)] :=
        dictSet_of_notMem _ _ _ (hdisj col (List.mem_cons_self _ _))
      have hdisj2 : ∀ c ∈ cols, c ∉ (row ++ [(col, v)]).map Prod.fst := by
        intro c hc
        simp only [List.map_append, List.mem_append, List.map_cons, List.map_nil,
          List.mem_cons, List.not_mem_nil, or_false, not_or]
        exact ⟨hdisj c (List.mem_cons_of_mem _ hc), fun hcc => hnd.1 (hcc ▸ hc)⟩
      rw [hset, ih (row ++ [(col, v)]) hnd.2 hdisj2]
      cases hrv : rowValues trs cont cols with
      | error e => rfl
      | ok r =>
        dsimp only [Except.map]
        rw [List.append_assoc]
        rfl

theorem rowValues_lookup (trs : List (String × Transform)) (cont : Container) :
    ∀ (cols : List String) (r : List (String × RTValue)),
      rowValues trs cont cols = Except.ok r → cols.Nodup →
      ∀ c ∈ cols, ∃ v, appliedValue trs cont c = Except.ok v ∧
        lookup? r c = some v := by
  intro cols
  induction cols with
  | nil => intro r _ _ c hc; cases hc
  | cons col cols ih =>
    intro r h hnd c hc
    simp only [List.nodup_cons] at hnd
    simp only [rowValues] at h
    cases hav : appliedValue trs cont col with
    | error e => rw [hav] at h; cases h
    | ok v =>
      rw [hav] at h
      dsimp only at h
      cases hrv : rowValues trs cont cols with
      | error e => rw [hrv] at h; cases h
      | ok r2 =>
        rw [hrv] at h
        dsimp only at h
        injection h with h2
        subst h2
        rcases List.mem_cons.mp hc with rfl | hc2
        · exact ⟨v, hav, by simp [lookup?]⟩
        · obtain ⟨v2, hav2, hl⟩ := ih r2 hrv hnd.2 c hc2
          have hne : ¬ col = c := fun hcc => hnd.1 (hcc ▸ hc2)
          exact ⟨v2, hav2, by simp [lookup?, hne, hl]⟩

theorem rowValues_keys (trs : List (String × Transform)) (cont : Container) :
    ∀ (cols : List String) (r : List (String × RTValue)),
      rowValues trs cont cols = Except.ok r → r.map Prod.fst = cols := by
  intro cols
  induction cols with
  | nil =>
    intro r h
    injection h with h2
    rw [← h2]
    rfl
  | cons col cols ih =>
    intro r h
    simp only [rowValues] at h
    cases hav : appliedValue trs cont col with
    | error e => rw [hav] at h; cases h
    | ok v =>
      rw [hav] at h
      dsimp only at h
      cases hrv : rowValues trs cont cols with
      | error e => rw [hrv] at h; cases h
      | ok r2 =>
        rw [hrv] at h
        dsimp only at h
        injection h with h2
        rw [← h2]
        simp [ih r2 hrv]

/-- If the record lacks some table column and every transform on the present
columns succeeds, the append loop fails with a key error naming a missing
column, before committing anything. -/
theorem rowLoop_missing (trs : List (String × Transform)) (cont : Container) :
    ∀ (cols : List String) (row : List (String × RTValue)) (f : String),
      f ∈ cols → lookup? cont.fields f = none →
      (∀ c ∈ cols, ∀ v, lookup? cont.fields c = some v →
        ∀ tr, lookup? trs c = some tr → ∃ v2, tr v = Except.ok v2) →
      ∃ g, rowLoop trs cont cols row = Except.error (PyErr.keyError g) ∧
        g ∈ cols ∧ lookup? cont.fields g = none := by
  intro cols
  induction cols with
  | nil => intro row f hf _ _; cases hf
  | cons col cols ih =>
    intro row f hf hmiss htr
    simp only [rowLoop]
    cases hlf : lookup? cont.fields col with
    | none =>
      refine ⟨col, ?_, List.mem_cons_self _ _, hlf⟩
      simp [appliedValue, hlf]
    | some v =>
      have hcf : f ≠ col := by
        intro hcc
        rw [hcc, hlf] at hmiss
        cases hmiss
      have hf2 : f ∈ cols := by
        rcases List.mem_cons.mp hf with rfl | h2
        · exact absurd rfl hcf
        · exact h2
      cases hlt : lookup? trs col with
      | some tr =>
        obtain ⟨v2, hv2⟩ := htr col (List.mem_cons_self _ _) v hlf tr hlt
        have hav : appliedValue trs cont col = Except.ok v2 := by
          simp [appliedValue, hlf, hlt, hv2]
        obtain ⟨g, hg, hgm, hgn⟩ := ih (dictSet row col v2) f hf2 hmiss
          (fun c hc => htr c (List.mem_cons_of_mem _ hc))
        refine ⟨g, ?_, List.mem_cons_of_mem _ hgm, hgn⟩
        rw [hav]
        exact hg
      | none =>
        have hav : appliedValue trs cont col = Except.ok v := by
          simp [appliedValue, hlf, hlt]
        obtain ⟨g, hg, hgm, hgn⟩ := ih (dictSet row col v) f hf2 hmiss
          (fun c hc => htr c (List.mem_cons_of_mem _ hc))
        refine ⟨g, ?_, List.mem_cons_of_mem _ hgm, hgn⟩
        rw [hav]
        exact hg

theorem exceptMap_ok {ε α β : Type} {X : Except ε α} {F : α → β} {b : β}
    (h : X.map F = Except.ok b) : ∃ a, X = Except.ok a ∧ F a = b := by
  cases X with
  | error e => dsimp only [Except.map] at h; cases h
  | ok a => dsimp only [Except.map] at h; injection h with h2; exact ⟨a, rfl, h2⟩

/-- Rewrites `_append_row` in terms of `rowValues`: on success the state is unchanged
except that the computed row is appended to the table. -/
theorem append_row_eq (st : WriterState) (t : String) (cont : Container) (tb : Table)
    (htb : lookup? st.tables t = some tb) (hnd : tb.colnames.Nodup) :
    _append_row st t cont =
      (rowValues (getTransforms st t) cont tb.colnames).map
        (fun r => { st with
          tables := dictSet st.tables t { tb with rows := tb.rows ++ [r] } }) := by
  unfold _append_row
  rw [htb]
  dsimp only
  rw [rowLoop_eq (getTransforms st t) cont tb.colnames [] hnd (by intro c _; simp)]
  cases hrv : rowValues (getTransforms st t) cont tb.colnames with
  | error e => rfl
  | ok r => rfl

/-- Full characterisation of a successful first `write` for a table name:
the schema loop ran on the container's fields, the row loop produced the
single committed row over the schema's columns, the schema keys are distinct,
and the final state is exactly the initial one with the new transforms, the
stored schema and the fresh single-row table. -/
theorem write_first (st0 : WriterState) (t : String) (cont : Container)
    (st1 : WriterState) (h0 : lookup? st0.schemas t = none)
    (h1 : write st0 t cont = Except.ok st1) :
    ∃ stL schemaOut metaOut r1,
      schemaLoop t cont cont.fields st0 [] [] = Except.ok (stL, schemaOut, metaOut) ∧
      rowValues (getTransforms stL t) cont (schemaOut.map Prod.fst) = Except.ok r1 ∧
      (schemaOut.map Prod.fst).Nodup ∧
      st1 = { transforms := stL.transforms, exclusions := st0.exclusions,
              schemas := dictSet st0.schemas t schemaOut,
              tables := dictSet st0.tables t
                { title := cont.className, description := schemaOut,
                  attrs := dictUpdate (dictSet metaOut "CTAPIPE_VERSION"
                    (AttrVal.str ctapipe_version)) cont.meta,
                  rows := [r1] } } := by
  unfold write at h1
  rw [h0] at h1
  dsimp only at h1
  unfold _setup_new_table _create_hdf5_table_schema at h1
  cases hsl : schemaLoop t cont cont.fields st0 [] [] with
  | error e =>
    rw [hsl] at h1
    dsimp only at h1
    cases h1
  | ok res =>
    obtain ⟨stL, res2⟩ := res
    obtain ⟨schemaOut, metaOut⟩ := res2
    rw [hsl] at h1
    dsimp only at h1
    rw [lookup?_dictSet_self] at h1
    dsimp only [Option.getD] at h1
    obtain ⟨hE, hS, hT, hND⟩ :=
      schemaLoop_state t cont cont.fields st0 [] [] stL schemaOut metaOut hsl
    have hndS : (schemaOut.map Prod.fst).Nodup := hND (by simp)
    have h1' : _append_row
        { stL with
          schemas := dictSet stL.schemas t schemaOut,
          tables := dictSet stL.tables t (Table.mk cont.className schemaOut
            (dictUpdate (dictSet metaOut "CTAPIPE_VERSION"
              (AttrVal.str ctapipe_version)) cont.meta) []) } t cont =
        Except.ok st1 := h1
    have happ := append_row_eq
      { stL with
        schemas := dictSet stL.schemas t schemaOut,
        tables := dictSet stL.tables t (Table.mk cont.className schemaOut
          (dictUpdate (dictSet metaOut "CTAPIPE_VERSION"
            (AttrVal.str ctapipe_version)) cont.meta) []) } t cont
      (Table.mk cont.className schemaOut
        (dictUpdate (dictSet metaOut "CTAPIPE_VERSION"
          (AttrVal.str ctapipe_version)) cont.meta) [])
      (by exact lookup?_dictSet_self _ _ _) (by exact hndS)
    rw [happ] at h1'
    obtain ⟨r1, hrv0, hF⟩ := exceptMap_ok h1'
    have hrv : rowValues (getTransforms stL t) cont (schemaOut.map Prod.fst) =
        Except.ok r1 := hrv0
    refine ⟨stL, schemaOut, metaOut, r1, rfl, hrv, hndS, ?_⟩
    rw [← hF]
    dsimp only
    rw [dictSet_dictSet, hE, hS, hT]
    rfl

/-! The claim theorems. -/

/-- Claim C1: for records R1 and R2 written in turn to the same fresh table
name, the two successful writes append exactly two rows; each row assigns, in
schema order, every schema column the corresponding record's field value at
that time, with the registered transform for that (table, column) applied when
one exists (`appliedValue` is exactly "read the field, then apply the
registered transform if any"). -/
theorem C1_two_writes (st0 st1 st2 : WriterState) (t : String) (R1 R2 : Container)
    (h0 : lookup? st0.schemas t = none)
    (h1 : write st0 t R1 = Except.ok st1)
    (h2 : write st1 t R2 = Except.ok st2) :
    ∃ tb r1 r2, lookup? st2.tables t = some tb ∧ tb.rows = [r1, r2] ∧
      r1.map Prod.fst = tb.colnames ∧ r2.map Prod.fst = tb.colnames ∧
      ∀ col ∈ tb.colnames,
        (∃ v1, appliedValue (getTransforms st2 t) R1 col = Except.ok v1 ∧
          lookup? r1 col = some v1) ∧
        (∃ v2, appliedValue (getTransforms st2 t) R2 col = Except.ok v2 ∧
          lookup? r2 col = some v2) := by
  obtain ⟨stL, schemaOut, metaOut, r1, hsl, hrv1, hndS, hst1⟩ :=
    write_first st0 t R1 st1 h0 h1
  have hs1 : lookup? st1.schemas t = some schemaOut := by
    rw [hst1]
    exact lookup?_dictSet_self _ _ _
  have htb1 : lookup? st1.tables t = some (Table.mk R1.className schemaOut
      (dictUpdate (dictSet metaOut "CTAPIPE_VERSION" (AttrVal.str ctapipe_version))
        R1.meta) [r1]) := by
    rw [hst1]
    exact lookup?_dictSet_self _ _ _
  have htr1 : getTransforms st1 t = getTransforms stL t := by
    rw [hst1]
    rfl
  unfold write at h2
  rw [hs1] at h2
  dsimp only at h2
  rw [append_row_eq st1 t R2 (Table.mk R1.className schemaOut
      (dictUpdate (dictSet metaOut "CTAPIPE_VERSION" (AttrVal.str ctapipe_version))
        R1.meta) [r1]) htb1 (by exact hndS)] at h2
  obtain ⟨r2, hrv2, hF2⟩ := exceptMap_ok h2
  have hrv2' : rowValues (getTransforms st1 t) R2 (schemaOut.map Prod.fst) =
      Except.ok r2 := hrv2
  rw [htr1] at hrv2'
  have hgt2 : getTransforms st2 t = getTransforms stL t := by
    rw [← hF2]
    exact htr1
  refine ⟨Table.mk R1.className schemaOut
      (dictUpdate (dictSet metaOut "CTAPIPE_VERSION" (AttrVal.str ctapipe_version))
        R1.meta) [r1, r2], r1, r2, ?_, rfl, ?_, ?_, ?_⟩
  · rw [← hF2]
    exact lookup?_dictSet_self _ _ _
  · exact rowValues_keys _ _ _ _ hrv1
  · exact rowValues_keys _ _ _ _ hrv2'
  · intro col hc
    obtain ⟨v1, hav1, hl1⟩ := rowValues_lookup _ _ _ _ hrv1 hndS col hc
    obtain ⟨v2, hav2, hl2⟩ := rowValues_lookup _ _ _ _ hrv2' hndS col hc
    exact ⟨⟨v1, by rw [hgt2]; exact hav1, hl1⟩,
           ⟨v2, by rw [hgt2]; exact hav2, hl2⟩⟩

/-- Claim C2: on the first write, a non-excluded quantity field's target unit
is the declared preferred unit when present and otherwise the quantity's own
unit; the writer registers the unit transform for (table, field); the header
gains `{field}_UNIT` = the target unit's string form; the stored column is a
float64 scalar; and the first committed row holds the bare magnitude in the
target unit. -/
theorem C2_quantity_first_write (st0 st1 : WriterState) (t col : String)
    (R : Container) (q : Quantity)
    (hmem : (col, RTValue.quantity q) ∈ R.fields)
    (hnd : (R.fields.map Prod.fst).Nodup)
    (hexcl : _is_column_excluded st0 t col = false)
    (h0 : lookup? st0.schemas t = none)
    (hmeta : lookup? R.meta (col ++ "_UNIT") = none)
    (h1 : write st0 t R = Except.ok st1) :
    lookup? (getTransforms st1 t) col = some (quantityTransform R col q) ∧
    ∃ q2, q.toUnit (targetUnit R col q) = Except.ok q2 ∧
      quantityTransform R col q (RTValue.quantity q) =
        Except.ok (RTValue.npFloat64 q2.value) ∧
      ∃ tb r1, lookup? st1.tables t = some tb ∧ tb.rows = [r1] ∧
        lookup? r1 col = some (RTValue.npFloat64 q2.value) ∧
        lookup? ((lookup? st1.schemas t).getD []) col =
          some (ColType.scalar "Float64Col") ∧
        lookup? tb.attrs (col ++ "_UNIT") =
          some (AttrVal.str (targetUnit R col q).name) := by
  obtain ⟨stL, schemaOut, metaOut, r1, hsl, hrv1, hndS, hst1⟩ :=
    write_first st0 t R st1 h0 h1
  obtain ⟨htrL, hmetaL, hschL, q2, hto, htrq⟩ :=
    schemaLoop_quantity t R col q R.fields st0 [] [] stL schemaOut metaOut
      hsl hmem hnd hexcl
  have htr1 : getTransforms st1 t = getTransforms stL t := by
    rw [hst1]
    rfl
  have hsch1 : lookup? st1.schemas t = some schemaOut := by
    rw [hst1]
    exact lookup?_dictSet_self _ _ _
  have hcolmem : col ∈ schemaOut.map Prod.fst := mem_keys_of_lookup? _ _ _ hschL
  have hfld : lookup? R.fields col = some (RTValue.quantity q) :=
    lookup?_of_mem_nodup _ _ _ hmem hnd
  have hav' : appliedValue (getTransforms stL t) R col =
      Except.ok (RTValue.npFloat64 q2.value) := by
    unfold appliedValue
    rw [hfld]
    dsimp only
    rw [htrL]
    dsimp only
    exact htrq
  obtain ⟨v1, hav1, hl1⟩ := rowValues_lookup _ _ _ _ hrv1 hndS col hcolmem
  rw [hav'] at hav1
  injection hav1 with hv1
  subst hv1
  refine ⟨by rw [htr1]; exact htrL, q2, hto, htrq,
    Table.mk R.className schemaOut
      (dictUpdate (dictSet metaOut "CTAPIPE_VERSION" (AttrVal.str ctapipe_version))
        R.meta) [r1], r1, ?_, rfl, hl1, ?_, ?_⟩
  · rw [hst1]
    exact lookup?_dictSet_self _ _ _
  · rw [hsch1]
    exact hschL
  · show lookup? (dictUpdate (dictSet metaOut "CTAPIPE_VERSION"
      (AttrVal.str ctapipe_version)) R.meta) (col ++ "_UNIT") =
      some (AttrVal.str (targetUnit R col q).name)
    rw [lookup?_dictUpdate_none R.meta _ _ hmeta,
      lookup?_dictSet_ne _ _ _ _ (unitKey_ne_version col)]
    exact hmetaL

/-- Witness for C1: the section-8 records `eventsR` then `eventsR2` written to
a fresh "events" table. -/
theorem C1_two_writes_witness :
    lookup? initState.schemas "events" = none ∧
    write initState "events" eventsR = Except.ok C2st1 ∧
    write C2st1 "events" eventsR2 = Except.ok C1st2 ∧
    (∃ tb r1 r2, lookup? C1st2.tables "events" = some tb ∧ tb.rows = [r1, r2] ∧
      r1.map Prod.fst = tb.colnames ∧ r2.map Prod.fst = tb.colnames ∧
      ∀ col ∈ tb.colnames,
        (∃ v1, appliedValue (getTransforms C1st2 "events") eventsR col =
          Except.ok v1 ∧ lookup? r1 col = some v1) ∧
        (∃ v2, appliedValue (getTransforms C1st2 "events") eventsR2 col =
          Except.ok v2 ∧ lookup? r2 col = some v2)) :=
  ⟨rfl, rfl, rfl,
    C1_two_writes initState C2st1 C1st2 "events" eventsR eventsR2 rfl rfl rfl⟩

/-- Witness for C2: the section-8 scenario — `energy` is 10 TeV with preferred
unit GeV; the first write stores a float64 scalar column, header entry
`energy_UNIT = "GeV"`, and a first-row energy value of 10000. -/
theorem C2_quantity_first_write_witness :
    ((Quantity.mk 10 TeV, eventsR.getUnitAttr "energy") =
      (Quantity.mk 10 TeV, some GeV) ∧
     ("energy", RTValue.quantity (Quantity.mk 10 TeV)) ∈ eventsR.fields ∧
     (eventsR.fields.map Prod.fst).Nodup ∧
     _is_column_excluded initState "events" "energy" = false ∧
     lookup? initState.schemas "events" = none ∧
     lookup? eventsR.meta ("energy" ++ "_UNIT") = none ∧
     write initState "events" eventsR = Except.ok C2st1) ∧
    (lookup? (getTransforms C2st1 "events") "energy" =
      some (quantityTransform eventsR "energy" (Quantity.mk 10 TeV)) ∧
     ∃ q2, (Quantity.mk 10 TeV).toUnit
        (targetUnit eventsR "energy" (Quantity.mk 10 TeV)) = Except.ok q2 ∧
      quantityTransform eventsR "energy" (Quantity.mk 10 TeV)
          (RTValue.quantity (Quantity.mk 10 TeV)) =
        Except.ok (RTValue.npFloat64 q2.value) ∧
      ∃ tb r1, lookup? C2st1.tables "events" = some tb ∧ tb.rows = [r1] ∧
        lookup? r1 "energy" = some (RTValue.npFloat64 q2.value) ∧
        lookup? ((lookup? C2st1.schemas "events").getD []) "energy" =
          some (ColType.scalar "Float64Col") ∧
        lookup? tb.attrs ("energy" ++ "_UNIT") =
          some (AttrVal.str (targetUnit eventsR "energy" (Quantity.mk 10 TeV)).name)) ∧
    ((Quantity.mk 10 TeV).toUnit GeV =
       Except.ok (Quantity.mk (10 * TeV.factor / GeV.factor) GeV) ∧
     (10 * TeV.factor / GeV.factor : Rat) = 10000 ∧
     lookup? ((lookup? C2st1.schemas "events").getD []) "event_id" =
       some (ColType.scalar "IntCol") ∧
     (exTable (lookup? C2st1.tables "events")).attrs =
       [("energy_UNIT", AttrVal.str "GeV"),
        ("CTAPIPE_VERSION", AttrVal.str ctapipe_version),
        ("test_attribute", AttrVal.num 3)] ∧
     (exTable (lookup? C2st1.tables "events")).rows =
       [[("energy", RTValue.npFloat64 (10 * TeV.factor / GeV.factor)),
         ("event_id", RTValue.pyInt 42)]]) :=
  ⟨⟨rfl, by decide, by decide, rfl, rfl, rfl, rfl⟩,
   C2_quantity_first_write initState C2st1 "events" "energy" eventsR
     (Quantity.mk 10 TeV) (by decide) (by decide) rfl rfl rfl rfl,
   ⟨rfl, by norm_num [TeV, GeV], rfl, rfl, rfl⟩⟩

/-- Counterexample to claim C3 as stated: the transform `trC3` (int-to-float)
is registered for ("t", "x") before the first write, yet schema inference
derives the stored column type from the raw int value — `IntCol` — although
the transformed value (a float) would map to `Float64Col`; meanwhile the
committed row does hold the transformed float value. -/
theorem C3_counterexample :
    lookup? (getTransforms C3st0 "t") "x" = some trC3 ∧
    write C3st0 "t" C3cont = Except.ok C3st1 ∧
    lookup? ((lookup? C3st1.schemas "t").getD []) "x" =
      some (ColType.scalar "IntCol") ∧
    trC3 (RTValue.pyInt 5) = Except.ok (RTValue.pyFloat 0) ∧
    addColToSchema [] "x" (RTValue.pyFloat 0) =
      Except.ok [("x", ColType.scalar "Float64Col")] ∧
    (exTable (lookup? C3st1.tables "t")).rows = [[("x", RTValue.pyFloat 0)]] :=
  ⟨rfl, rfl, rfl, rfl, rfl, rfl⟩

/-- Claim C3 (amended): transforms registered via `add_column_transform`
before the first write are never consulted by schema inference — the inferred
schema and the header metadata (and any inference error) are independent of
the transforms component of the writer state; inference types each column
from the raw field value, except that quantity fields are typed through the
unit transform inference itself builds. (Pre-registered transforms do apply
on every append.) -/
theorem C3_amended_inference_ignores_transforms (st : WriterState)
    (trs : List (String × List (String × Transform))) (t : String)
    (cont : Container) :
    (_create_hdf5_table_schema { st with transforms := trs } t cont).map
      (fun r => (lookup? r.1.schemas t, r.2)) =
    (_create_hdf5_table_schema st t cont).map
      (fun r => (lookup? r.1.schemas t, r.2)) := by
  have hind := schemaLoop_indep t cont cont.fields { st with transforms := trs } st
    [] [] rfl
  unfold _create_hdf5_table_schema
  cases h1 : schemaLoop t cont cont.fields { st with transforms := trs } [] [] with
  | error e =>
    rw [h1] at hind
    cases h2 : schemaLoop t cont cont.fields st [] [] with
    | error e2 =>
      rw [h2] at hind
      dsimp only [Except.map] at hind ⊢
      injection hind with h3
      rw [h3]
    | ok r2 =>
      rw [h2] at hind
      dsimp only [Except.map] at hind
      cases hind
  | ok r =>
    rw [h1] at hind
    cases h2 : schemaLoop t cont cont.fields st [] [] with
    | error e2 =>
      rw [h2] at hind
      dsimp only [Except.map] at hind
      cases hind
    | ok r2 =>
      rw [h2] at hind
      dsimp only [Except.map] at hind ⊢
      injection hind with h3
      obtain ⟨stA, resA⟩ := r
      obtain ⟨schemaA, metaA⟩ := resA
      obtain ⟨stB, resB⟩ := r2
      obtain ⟨schemaB, metaB⟩ := resB
      dsimp only [loopOut] at h3
      injection h3 with h4 h5
      dsimp only
      rw [h4, h5, lookup?_dictSet_self, lookup?_dictSet_self]

/-- Applying `addColToSchema` to a non-array value with an unsupported type name leaves
the schema unchanged and raises nothing. -/
theorem addColToSchema_skip (schema : List (String × ColType)) (col : String)
    (v : RTValue) (ha : v.isArray = false)
    (hmap : lookup? PYTABLES_TYPE_MAP v.typeName = none) :
    addColToSchema schema col v = Except.ok schema := by
  unfold addColToSchema
  cases v with
  | array a => simp [RTValue.isArray] at ha
  | pyInt n => simp [hmap]
  | pyFloat x => simp [hmap]
  | npFloat64 x => simp [hmap]
  | npFloat32 x => simp [hmap]
  | pyBool b => simp [hmap]
  | quantity q => simp [hmap]
  | other tn => simp [hmap]

/-- Applying `addColToSchema` to an array with an unsupported dtype name raises the
`KeyError` of `PYTABLES_TYPE_MAP[typename]`. -/
theorem addColToSchema_array_err (schema : List (String × ColType)) (col : String)
    (a : NDArray) (hmap : lookup? PYTABLES_TYPE_MAP a.dtypeName = none) :
    addColToSchema schema col (RTValue.array a) =
      Except.error (PyErr.keyError a.dtypeName) := by
  unfold addColToSchema
  simp [hmap]

/-- Counterexample to claim C4 as stated: a field holding an int64 array (an
unsupported dtype: `int64` is not in `PYTABLES_TYPE_MAP`) is "of a runtime
type that maps to no supported column kind", yet `write` raises a `KeyError`
instead of returning without error. -/
theorem C4_counterexample :
    lookup? PYTABLES_TYPE_MAP "int64" = none ∧
    C4cont.fields = [("x", RTValue.array (NDArray.mk "int64" [3] [1, 2, 3]))] ∧
    write initState "t" C4cont = Except.error (PyErr.keyError "int64") :=
  ⟨rfl, rfl, rfl⟩

/-- Claim C4 (amended): a non-excluded field whose (possibly transformed)
value is not an ndarray and whose runtime type name maps to no supported
scalar kind is silently omitted from the schema — processing it is a no-op of
the schema loop, raising nothing; but a field holding an ndarray whose dtype
name is unsupported makes schema inference fail with a KeyError rather than
being skipped. -/
theorem C4_unsupported_skip_or_raise (t : String) (cont : Container)
    (col : String) (v : RTValue) (a : NDArray)
    (rest : List (String × RTValue)) (st : WriterState)
    (schema : List (String × ColType)) (meta : List (String × AttrVal))
    (hq : v.isQuantity = false) (ha : v.isArray = false)
    (hmap : lookup? PYTABLES_TYPE_MAP v.typeName = none)
    (hexcl : _is_column_excluded st t col = false)
    (hmap2 : lookup? PYTABLES_TYPE_MAP a.dtypeName = none) :
    schemaLoop t cont ((col, v) :: rest) st schema meta =
      schemaLoop t cont rest st schema meta ∧
    schemaLoop t cont ((col, RTValue.array a) :: rest) st schema meta =
      Except.error (PyErr.keyError a.dtypeName) := by
  have hnotex : ¬ (_is_column_excluded st t col = true) := by
    simp [hexcl]
  constructor
  · simp only [schemaLoop]
    rw [if_neg hnotex]
    cases v with
    | quantity q => simp [RTValue.isQuantity] at hq
    | array a2 => simp [RTValue.isArray] at ha
    | pyInt n =>
      dsimp only
      rw [addColToSchema_skip _ _ _ ha hmap]
    | pyFloat x =>
      dsimp only
      rw [addColToSchema_skip _ _ _ ha hmap]
    | npFloat64 x =>
      dsimp only
      rw [addColToSchema_skip _ _ _ ha hmap]
    | npFloat32 x =>
      dsimp only
      rw [addColToSchema_skip _ _ _ ha hmap]
    | pyBool b =>
      dsimp only
      rw [addColToSchema_skip _ _ _ ha hmap]
    | other tn =>
      dsimp only
      rw [addColToSchema_skip _ _ _ ha hmap]
  · simp only [schemaLoop]
    rw [if_neg hnotex]
    rw [addColToSchema_array_err _ _ _ hmap2]

/-- Witness for C4 (amended): the value `other "dict"` is silently skipped,
while the int64 array raises. -/
theorem C4_unsupported_witness :
    (RTValue.other "dict").isQuantity = false ∧
    (RTValue.other "dict").isArray = false ∧
    lookup? PYTABLES_TYPE_MAP (RTValue.other "dict").typeName = none ∧
    _is_column_excluded initState "t" "x" = false ∧
    lookup? PYTABLES_TYPE_MAP (NDArray.mk "int64" [3] [1, 2, 3]).dtypeName = none ∧
    (schemaLoop "t" C4cont [("x", RTValue.other "dict")] initState [] [] =
       schemaLoop "t" C4cont [] initState [] [] ∧
     schemaLoop "t" C4cont
         [("x", RTValue.array (NDArray.mk "int64" [3] [1, 2, 3]))] initState [] [] =
       Except.error (PyErr.keyError (NDArray.mk "int64" [3] [1, 2, 3]).dtypeName)) :=
  ⟨rfl, rfl, rfl, rfl, rfl,
   C4_unsupported_skip_or_raise "t" C4cont "x" (RTValue.other "dict")
     (NDArray.mk "int64" [3] [1, 2, 3]) [] initState [] [] rfl rfl rfl rfl rfl⟩

/-- Claim C5: once the schema for a table name is established, a successful
write performs no inference, no table creation and no header rewrite — the
schemas, exclusions and transforms are unchanged and the table keeps its
title, description and header attributes, gaining exactly one appended row. -/
theorem C5_second_write_appends_only (st st' : WriterState) (t : String)
    (cont : Container) (sch : List (String × ColType))
    (hs : lookup? st.schemas t = some sch)
    (h : write st t cont = Except.ok st') :
    st'.schemas = st.schemas ∧ st'.exclusions = st.exclusions ∧
    st'.transforms = st.transforms ∧
    ∃ tb tb' r, lookup? st.tables t = some tb ∧ lookup? st'.tables t = some tb' ∧
      tb'.attrs = tb.attrs ∧ tb'.description = tb.description ∧
      tb'.title = tb.title ∧ tb'.rows = tb.rows ++ [r] := by
  unfold write at h
  rw [hs] at h
  dsimp only at h
  unfold _append_row at h
  cases htb : lookup? st.tables t with
  | none =>
    rw [htb] at h
    dsimp only at h
    cases h
  | some tb =>
    rw [htb] at h
    dsimp only at h
    cases hrl : rowLoop (getTransforms st t) cont tb.colnames [] with
    | error e =>
      rw [hrl] at h
      dsimp only at h
      cases h
    | ok row =>
      rw [hrl] at h
      dsimp only at h
      injection h with h2
      rw [← h2]
      refine ⟨rfl, rfl, rfl, tb, { tb with rows := tb.rows ++ [row] }, row,
        rfl, ?_, rfl, rfl, rfl, rfl⟩
      exact lookup?_dictSet_self _ _ _

/-- Witness for C5: the second write of the section-8 scenario. -/
theorem C5_second_write_witness :
    lookup? C2st1.schemas "events" =
      some [("energy", ColType.scalar "Float64Col"),
            ("event_id", ColType.scalar "IntCol")] ∧
    write C2st1 "events" eventsR2 = Except.ok C1st2 ∧
    (C1st2.schemas = C2st1.schemas ∧ C1st2.exclusions = C2st1.exclusions ∧
     C1st2.transforms = C2st1.transforms ∧
     ∃ tb tb' r, lookup? C2st1.tables "events" = some tb ∧
       lookup? C1st2.tables "events" = some tb' ∧
       tb'.attrs = tb.attrs ∧ tb'.description = tb.description ∧
       tb'.title = tb.title ∧ tb'.rows = tb.rows ++ [r]) :=
  ⟨rfl, rfl,
   C5_second_write_appends_only C2st1 C1st2 "events" eventsR2
     [("energy", ColType.scalar "Float64Col"), ("event_id", ColType.scalar "IntCol")]
     rfl rfl⟩

/-- Counterexample to claim C6 as stated: `C6R2` lacks the schema field `b`,
yet the write fails with the unit-conversion error raised while transforming
column `a` (processed first in schema order) — not with the missing-field key
error the claim promises. -/
theorem C6_counterexample :
    write initState "events" C6R1 = Except.ok C6st1 ∧
    "b" ∈ ((lookup? C6st1.schemas "events").getD []).map Prod.fst ∧
    lookup? C6R2.fields "b" = none ∧
    write C6st1 "events" C6R2 = Except.error PyErr.unitsError ∧
    PyErr.unitsError ≠ PyErr.keyError "b" :=
  ⟨rfl, by decide, rfl, rfl, by decide⟩

/-- Claim C6 (amended): when a later record lacks a schema column and every
registered transform succeeds on the columns that are present, the write
fails with the key error (MissingFieldError) of a missing schema column and
commits nothing — an erroring write returns no new state, so the writer's
schema state is unchanged; if instead a transform on an earlier column fails,
that error propagates first. -/
theorem C6_missing_field (st : WriterState) (t : String) (cont : Container)
    (sch : List (String × ColType)) (tb : Table) (f : String)
    (hs : lookup? st.schemas t = some sch)
    (ht : lookup? st.tables t = some tb)
    (hf : f ∈ tb.colnames) (hmiss : lookup? cont.fields f = none)
    (htr : ∀ c ∈ tb.colnames, ∀ v, lookup? cont.fields c = some v →
      ∀ tr, lookup? (getTransforms st t) c = some tr →
        ∃ v2, tr v = Except.ok v2) :
    ∃ g, write st t cont = Except.error (PyErr.keyError g) ∧
      g ∈ tb.colnames ∧ lookup? cont.fields g = none ∧
      ∀ st', write st t cont ≠ Except.ok st' := by
  obtain ⟨g, hg, hgm, hgn⟩ :=
    rowLoop_missing (getTransforms st t) cont tb.colnames [] f hf hmiss htr
  have hw : write st t cont = Except.error (PyErr.keyError g) := by
    unfold write
    rw [hs]
    dsimp only
    unfold _append_row
    rw [ht]
    dsimp only
    rw [hg]
  exact ⟨g, hw, hgm, hgn, fun st' hc => by rw [hw] at hc; cases hc⟩

/-- Witness for C6 (amended): the record `C6w2` lacks the schema column `b`
of table "t6" (no transforms are registered), so the write fails with the key
error for `b`. -/
theorem C6_missing_field_witness :
    lookup? C6wSt.schemas "t6" =
      some [("a", ColType.scalar "IntCol"), ("b", ColType.scalar "IntCol")] ∧
    lookup? C6wSt.tables "t6" = some (exTable (lookup? C6wSt.tables "t6")) ∧
    "b" ∈ (exTable (lookup? C6wSt.tables "t6")).colnames ∧
    lookup? C6w2.fields "b" = none ∧
    (∃ g, write C6wSt "t6" C6w2 = Except.error (PyErr.keyError g) ∧
      g ∈ (exTable (lookup? C6wSt.tables "t6")).colnames ∧
      lookup? C6w2.fields g = none ∧
      ∀ st', write C6wSt "t6" C6w2 ≠ Except.ok st') :=
  ⟨rfl, rfl, by decide, rfl,
   C6_missing_field C6wSt "t6" C6w2
     [("a", ColType.scalar "IntCol"), ("b", ColType.scalar "IntCol")]
     (exTable (lookup? C6wSt.tables "t6")) "b" rfl rfl (by decide) rfl
     (by
       intro c hc v hv tr htr2
       have h0 : getTransforms C6wSt "t6" = [] := rfl
       rw [h0] at htr2
       simp [lookup?] at htr2)⟩

/-- Claim C7: the exclusion check returns true iff some pattern registered
for the table matches the column name anchored at the start of the string
(`matchAtStart` is `re.match`: it matches an initial segment, never a proper
interior occurrence); for a literal pattern, matching at the start is exactly
being a prefix of the column name, so a pattern occurring only as an interior
substring of the column name does not exclude it. -/
theorem C7_exclusion_anchored (st : WriterState) (t col : String) :
    (_is_column_excluded st t col = true ↔
      ∃ p ∈ getExclusions st t, matchAtStart p col.toList = true) ∧
    (∀ lit : List Char,
      matchAtStart (litOf lit) col.toList = lit.isPrefixOf col.toList) := by
  constructor
  · exact excludedLoop_iff (getExclusions st t) col
  · intro lit
    exact matchAtStart_litOf lit col.toList

/-- Claim C8: the header attributes written at table creation are the
unit-metadata accumulator plus the fixed `CTAPIPE_VERSION` tag, updated with
the record's own metadata merged last — so on any key collision the record's
own entry wins, and keys the record does not set keep the writer's values. -/
theorem C8_header_merge (st0 st1 : WriterState) (t : String) (cont : Container)
    (h0 : lookup? st0.schemas t = none)
    (hnd : (cont.meta.map Prod.fst).Nodup)
    (h1 : write st0 t cont = Except.ok st1) :
    ∃ stL schemaOut metaOut tb,
      schemaLoop t cont cont.fields st0 [] [] =
        Except.ok (stL, schemaOut, metaOut) ∧
      lookup? st1.tables t = some tb ∧
      tb.attrs = dictUpdate
        (dictSet metaOut "CTAPIPE_VERSION" (AttrVal.str ctapipe_version))
        cont.meta ∧
      lookup? (dictSet metaOut "CTAPIPE_VERSION" (AttrVal.str ctapipe_version))
        "CTAPIPE_VERSION" = some (AttrVal.str ctapipe_version) ∧
      (∀ k v, lookup? cont.meta k = some v → lookup? tb.attrs k = some v) ∧
      (∀ k, lookup? cont.meta k = none → lookup? tb.attrs k =
        lookup? (dictSet metaOut "CTAPIPE_VERSION" (AttrVal.str ctapipe_version)) k) := by
  obtain ⟨stL, schemaOut, metaOut, r1, hsl, hrv1, hndS, hst1⟩ :=
    write_first st0 t cont st1 h0 h1
  refine ⟨stL, schemaOut, metaOut,
    Table.mk cont.className schemaOut
      (dictUpdate (dictSet metaOut "CTAPIPE_VERSION" (AttrVal.str ctapipe_version))
        cont.meta) [r1],
    hsl, ?_, rfl, lookup?_dictSet_self _ _ _, ?_, ?_⟩
  · rw [hst1]
    exact lookup?_dictSet_self _ _ _
  · intro k v hk
    exact lookup?_dictUpdate_some cont.meta _ k v hnd hk
  · intro k hk
    exact lookup?_dictUpdate_none cont.meta _ k hk

/-- Witness for C8: the first write of the section-8 record, whose metadata
mapping holds the single entry `test_attribute`. -/
theorem C8_header_merge_witness :
    lookup? initState.schemas "events" = none ∧
    (eventsR.meta.map Prod.fst).Nodup ∧
    write initState "events" eventsR = Except.ok C2st1 ∧
    (∃ stL schemaOut metaOut tb,
      schemaLoop "events" eventsR eventsR.fields initState [] [] =
        Except.ok (stL, schemaOut, metaOut) ∧
      lookup? C2st1.tables "events" = some tb ∧
      tb.attrs = dictUpdate
        (dictSet metaOut "CTAPIPE_VERSION" (AttrVal.str ctapipe_version))
        eventsR.meta ∧
      lookup? (dictSet metaOut "CTAPIPE_VERSION" (AttrVal.str ctapipe_version))
        "CTAPIPE_VERSION" = some (AttrVal.str ctapipe_version) ∧
      (∀ k v, lookup? eventsR.meta k = some v → lookup? tb.attrs k = some v) ∧
      (∀ k, lookup? eventsR.meta k = none → lookup? tb.attrs k =
        lookup? (dictSet metaOut "CTAPIPE_VERSION" (AttrVal.str ctapipe_version)) k)) :=
  ⟨rfl, by decide, rfl,
   C8_header_merge initState C2st1 "events" eventsR rfl (by decide) rfl⟩

/-- Claim C9: after the schema for a table is fixed, `exclude` has no effect
beyond recording the pattern — the schemas are untouched and the whole write
commutes with it (so it changes neither which fields are read nor what is
appended); whereas `add_column_transform` after the first write does change
the value stored by the next append for a column already in the schema,
because transform lookup happens on every append. -/
theorem C9_late_exclude_vs_transform (st : WriterState) (t col : String)
    (p : Regex) (tr : Transform) (cont : Container)
    (sch : List (String × ColType)) (tb : Table) (st2 : WriterState)
    (hs : lookup? st.schemas t = some sch)
    (ht : lookup? st.tables t = some tb)
    (hnd : tb.colnames.Nodup)
    (hcol : col ∈ tb.colnames)
    (h2 : write (add_column_transform st t col tr) t cont = Except.ok st2) :
    ((exclude st t p).schemas = st.schemas ∧
     write (exclude st t p) t cont =
       (write st t cont).map (fun s => exclude s t p)) ∧
    (∃ r v v', lookup? st2.tables t =
        some { tb with rows := tb.rows ++ [r] } ∧
      lookup? cont.fields col = some v ∧ tr v = Except.ok v' ∧
      lookup? r col = some v') := by
  constructor
  · refine ⟨rfl, ?_⟩
    unfold write
    have hsx : lookup? (exclude st t p).schemas t = some sch := hs
    rw [hsx, hs]
    dsimp only
    unfold _append_row
    have htx : lookup? (exclude st t p).tables t = some tb := ht
    rw [htx, ht]
    dsimp only
    have hgx : getTransforms (exclude st t p) t = getTransforms st t := rfl
    rw [hgx]
    cases hrl : rowLoop (getTransforms st t) cont tb.colnames [] with
    | error e => rfl
    | ok row => rfl
  · have hsx2 : lookup? (add_column_transform st t col tr).schemas t = some sch := hs
    unfold write at h2
    rw [hsx2] at h2
    dsimp only at h2
    have htx2 : lookup? (add_column_transform st t col tr).tables t = some tb := ht
    rw [append_row_eq _ t cont tb htx2 hnd] at h2
    obtain ⟨r, hrv, hF⟩ := exceptMap_ok h2
    obtain ⟨v', hav, hl⟩ := rowValues_lookup _ _ _ _ hrv hnd col hcol
    have hgt : lookup? (getTransforms (add_column_transform st t col tr) t) col =
        some tr := by
      rw [getTransforms_add_self]
      exact lookup?_dictSet_self _ _ _
    unfold appliedValue at hav
    cases hlf : lookup? cont.fields col with
    | none =>
      rw [hlf] at hav
      cases hav
    | some v =>
      rw [hlf] at hav
      dsimp only at hav
      rw [hgt] at hav
      dsimp only at hav
      refine ⟨r, v, v', ?_, rfl, hav, hl⟩
      rw [← hF]
      exact lookup?_dictSet_self _ _ _

/-- Witness for C9: after the section-8 first write, a pattern is excluded
late (no effect) and a transform `tr9` is registered late for `event_id`
(the next appended row stores `tr9`'s output, the int 0). -/
theorem C9_late_exclude_vs_transform_witness :
    lookup? C2st1.schemas "events" =
      some [("energy", ColType.scalar "Float64Col"),
            ("event_id", ColType.scalar "IntCol")] ∧
    lookup? C2st1.tables "events" = some (exTable (lookup? C2st1.tables "events")) ∧
    (exTable (lookup? C2st1.tables "events")).colnames.Nodup ∧
    "event_id" ∈ (exTable (lookup? C2st1.tables "events")).colnames ∧
    write (add_column_transform C2st1 "events" "event_id" tr9) "events" eventsR2 =
      Except.ok C9st2 ∧
    (((exclude C2st1 "events" (litOf "event".toList)).schemas = C2st1.schemas ∧
      write (exclude C2st1 "events" (litOf "event".toList)) "events" eventsR2 =
        (write C2st1 "events" eventsR2).map
          (fun s => exclude s "events" (litOf "event".toList))) ∧
     (∃ r v v', lookup? C9st2.tables "events" =
        some { exTable (lookup? C2st1.tables "events") with
          rows := (exTable (lookup? C2st1.tables "events")).rows ++ [r] } ∧
      lookup? eventsR2.fields "event_id" = some v ∧ tr9 v = Except.ok v' ∧
      lookup? r "event_id" = some v')) :=
  ⟨rfl, rfl, by decide, by decide, rfl,
   C9_late_exclude_vs_transform C2st1 "events" "event_id"
     (litOf "event".toList) tr9 eventsR2
     [("energy", ColType.scalar "Float64Col"), ("event_id", ColType.scalar "IntCol")]
     (exTable (lookup? C2st1.tables "events")) C9st2
     rfl rfl (by decide) (by decide) rfl⟩

/-- Claim C10: a quantity field with no declared preferred unit gets the
strip-only transform (`lambda x: x.value`) registered on the first write; a
later append applies it to the record's current quantity and stores the bare
magnitude unchanged — no conversion and no error — even though the header's
`{field}_UNIT` entry records the first record's unit (which `q2` need not
carry). -/
theorem C10_strip_without_conversion (st0 st1 st2 : WriterState) (t col : String)
    (R1 R2 : Container) (q1 q2 : Quantity)
    (hmem : (col, RTValue.quantity q1) ∈ R1.fields)
    (hnd : (R1.fields.map Prod.fst).Nodup)
    (hattr : R1.getUnitAttr col = none)
    (hexcl : _is_column_excluded st0 t col = false)
    (h0 : lookup? st0.schemas t = none)
    (hmeta : lookup? R1.meta (col ++ "_UNIT") = none)
    (h1 : write st0 t R1 = Except.ok st1)
    (hf2 : lookup? R2.fields col = some (RTValue.quantity q2))
    (h2 : write st1 t R2 = Except.ok st2) :
    lookup? (getTransforms st1 t) col = some tr_strip_value ∧
    appliedValue (getTransforms st1 t) R2 col =
      Except.ok (RTValue.npFloat64 q2.value) ∧
    ∃ tb2 r2, lookup? st2.tables t = some tb2 ∧
      tb2.rows.getLast? = some r2 ∧
      lookup? r2 col = some (RTValue.npFloat64 q2.value) ∧
      lookup? tb2.attrs (col ++ "_UNIT") = some (AttrVal.str q1.unit.name) := by
  obtain ⟨stL, schemaOut, metaOut, r1, hsl, hrv1, hndS, hst1⟩ :=
    write_first st0 t R1 st1 h0 h1
  obtain ⟨htrL, hmetaL, hschL, q2x, hto, htrq⟩ :=
    schemaLoop_quantity t R1 col q1 R1.fields st0 [] [] stL schemaOut metaOut
      hsl hmem hnd hexcl
  have hqt : quantityTransform R1 col q1 = tr_strip_value := by
    unfold quantityTransform
    rw [hattr]
  have htu : targetUnit R1 col q1 = q1.unit := by
    unfold targetUnit
    rw [hattr]
    rfl
  rw [hqt] at htrL
  rw [htu] at hmetaL
  have htr1 : getTransforms st1 t = getTransforms stL t := by
    rw [hst1]
    rfl
  have hav2 : appliedValue (getTransforms st1 t) R2 col =
      Except.ok (RTValue.npFloat64 q2.value) := by
    unfold appliedValue
    rw [hf2]
    dsimp only
    rw [htr1, htrL]
    dsimp only
    rfl
  have hs1 : lookup? st1.schemas t = some schemaOut := by
    rw [hst1]
    exact lookup?_dictSet_self _ _ _
  have htb1 : lookup? st1.tables t = some (Table.mk R1.className schemaOut
      (dictUpdate (dictSet metaOut "CTAPIPE_VERSION" (AttrVal.str ctapipe_version))
        R1.meta) [r1]) := by
    rw [hst1]
    exact lookup?_dictSet_self _ _ _
  unfold write at h2
  rw [hs1] at h2
  dsimp only at h2
  rw [append_row_eq st1 t R2 (Table.mk R1.className schemaOut
      (dictUpdate (dictSet metaOut "CTAPIPE_VERSION" (AttrVal.str ctapipe_version))
        R1.meta) [r1]) htb1 (by exact hndS)] at h2
  obtain ⟨r2, hrv2, hF2⟩ := exceptMap_ok h2
  have hrv2' : rowValues (getTransforms stL t) R2 (schemaOut.map Prod.fst) =
      Except.ok r2 := by
    rw [htr1] at hrv2
    exact hrv2
  have hav2L : appliedValue (getTransforms stL t) R2 col =
      Except.ok (RTValue.npFloat64 q2.value) := by
    rw [← htr1]
    exact hav2
  have hcolmem : col ∈ schemaOut.map Prod.fst := mem_keys_of_lookup? _ _ _ hschL
  obtain ⟨v2, hav2', hl2⟩ := rowValues_lookup _ _ _ _ hrv2' hndS col hcolmem
  rw [hav2L] at hav2'
  injection hav2' with hv2
  subst hv2
  refine ⟨by rw [htr1]; exact htrL, hav2,
    Table.mk R1.className schemaOut
      (dictUpdate (dictSet metaOut "CTAPIPE_VERSION" (AttrVal.str ctapipe_version))
        R1.meta) ([r1] ++ [r2]), r2, ?_, List.getLast?_concat _, hl2, ?_⟩
  · rw [← hF2]
    exact lookup?_dictSet_self _ _ _
  · show lookup? (dictUpdate (dictSet metaOut "CTAPIPE_VERSION"
      (AttrVal.str ctapipe_version)) R1.meta) (col ++ "_UNIT") =
      some (AttrVal.str q1.unit.name)
    rw [lookup?_dictUpdate_none R1.meta _ _ hmeta,
      lookup?_dictSet_ne _ _ _ _ (unitKey_ne_version col)]
    exact hmetaL

/-- Witness for C10: `e` is written first as 10 TeV with no preferred unit
(header records TeV); the second record carries 5 GeV and the appended row
stores the bare 5, unconverted. -/
theorem C10_strip_without_conversion_witness :
    ("e", RTValue.quantity (Quantity.mk 10 TeV)) ∈ C10R1.fields ∧
    (C10R1.fields.map Prod.fst).Nodup ∧
    C10R1.getUnitAttr "e" = none ∧
    _is_column_excluded initState "q" "e" = false ∧
    lookup? initState.schemas "q" = none ∧
    lookup? C10R1.meta ("e" ++ "_UNIT") = none ∧
    write initState "q" C10R1 = Except.ok C10st1 ∧
    lookup? C10R2.fields "e" = some (RTValue.quantity (Quantity.mk 5 GeV)) ∧
    write C10st1 "q" C10R2 = Except.ok C10st2 ∧
    (lookup? (getTransforms C10st1 "q") "e" = some tr_strip_value ∧
     appliedValue (getTransforms C10st1 "q") C10R2 "e" =
       Except.ok (RTValue.npFloat64 (Quantity.mk 5 GeV).value) ∧
     ∃ tb2 r2, lookup? C10st2.tables "q" = some tb2 ∧
       tb2.rows.getLast? = some r2 ∧
       lookup? r2 "e" = some (RTValue.npFloat64 (Quantity.mk 5 GeV).value) ∧
       lookup? tb2.attrs ("e" ++ "_UNIT") =
         some (AttrVal.str (Quantity.mk 10 TeV).unit.name)) :=
  ⟨by decide, by decide, rfl, rfl, rfl, rfl, rfl, rfl, rfl,
   C10_strip_without_conversion initState C10st1 C10st2 "q" "e" C10R1 C10R2
     (Quantity.mk 10 TeV) (Quantity.mk 5 GeV)
     (by decide) (by decide) rfl rfl rfl rfl rfl rfl rfl⟩

end HdfTableModel
